import Mathlib

/-!
Verification development for the oceanside-ai-site repository
(`src/styles/main.jsx`).

The animation core (the `ParticleField` component, lines 118-184) is
embedded shallowly over `ℚ`: JavaScript numbers become exact rationals and
the host `Math.sqrt` becomes an explicit function parameter `f : ℚ → ℚ`.
Theorems that need `f` to behave like a square root assume `SqrtAdequate f`
(the lower bounds `|a| ≤ f (a² + b²)` that the real square root satisfies);
concrete runs use table functions that return the exact square root at the
inputs the run reaches, with that exactness stated inside the theorem.

The lead form (`LeadForm`, lines 465-524), the theme hook (`useTheme`,
lines 73-85) and the effect-teardown behaviour of the two canvas
components are embedded as pure functions over explicit state.
-/

namespace Oceanside

/-- A point of the particle field: position, velocity, radius, opacity
(`main.jsx` lines 138-145 create records with fields `x y vx vy r o`). -/
@[ext] structure Particle where
  x : ℚ
  y : ℚ
  vx : ℚ
  vy : ℚ
  r : ℚ
  o : ℚ
deriving DecidableEq

/-- `dist` of one update (line 157): `Math.sqrt(dx*dx + dy*dy) + 0.001`,
with the host square root passed in as `f`. -/
def distQ (f : ℚ → ℚ) (mx my : ℚ) (p : Particle) : ℚ :=
  f ((p.x - mx) * (p.x - mx) + (p.y - my) * (p.y - my)) + 1/1000

/-- `force` of one update (line 158): `Math.min(30 / dist, 0.6)`. -/
def forceQ (f : ℚ → ℚ) (mx my : ℚ) (p : Particle) : ℚ :=
  min (30 / distQ f mx my p) (3/5)

/-- Velocity increment applied to `vx` (line 159): `(dx / dist) * force * 0.02`. -/
def kickX (f : ℚ → ℚ) (mx my : ℚ) (p : Particle) : ℚ :=
  ((p.x - mx) / distQ f mx my p) * forceQ f mx my p * (1/50)

/-- Velocity increment applied to `vy` (line 160): `(dy / dist) * force * 0.02`. -/
def kickY (f : ℚ → ℚ) (mx my : ℚ) (p : Particle) : ℚ :=
  ((p.y - my) / distQ f mx my p) * forceQ f mx my p * (1/50)

/-- One per-frame update of one particle, transliterated from
`main.jsx` lines 153-167: mouse repulsion, integration, damping `* 0.98`,
then the boundary checks `if (p.x < 0 || p.x > canvas.width) p.vx *= -1`
(and the same for `y`/height).  `w`/`h` are `canvas.width`/`canvas.height`,
`(mx, my)` the device-pixel mouse position. -/
def updatePoint (f : ℚ → ℚ) (w h mx my : ℚ) (p : Particle) : Particle :=
  let vx1 := p.vx + kickX f mx my p
  let vy1 := p.vy + kickY f mx my p
  let x1 := p.x + vx1
  let y1 := p.y + vy1
  let vx2 := vx1 * (49/50)
  let vy2 := vy1 * (49/50)
  { x := x1
    y := y1
    vx := if x1 < 0 ∨ x1 > w then vx2 * (-1) else vx2
    vy := if y1 < 0 ∨ y1 > h then vy2 * (-1) else vy2
    r := p.r
    o := p.o }

/-- `N` iterated updates with a stationary pointer. -/
def iterUpdate (f : ℚ → ℚ) (w h mx my : ℚ) : ℕ → Particle → Particle
  | 0, p => p
  | n + 1, p => updatePoint f w h mx my (iterUpdate f w h mx my n p)

/-! ### The spec's step-by-step description of one update (for C1)

The spec (§4.2, steps 1-6) describes the update as a pipeline of four
stages; these definitions follow the spec's words, to be compared with
`updatePoint` above. -/

/-- Spec steps 1-3: compute the displacement and distance and add the
capped repulsion (`(dx/dist)·force·0.02`) to the velocity. -/
def applyForce (f : ℚ → ℚ) (mx my : ℚ) (p : Particle) : Particle :=
  { p with vx := p.vx + kickX f mx my p, vy := p.vy + kickY f mx my p }

/-- Spec step 4: integrate position, `p.x += p.vx`, `p.y += p.vy`. -/
def integrateStep (p : Particle) : Particle :=
  { p with x := p.x + p.vx, y := p.y + p.vy }

/-- Spec step 5: damp velocity, `p.vx *= 0.98`, `p.vy *= 0.98`. -/
def dampStep (p : Particle) : Particle :=
  { p with vx := p.vx * (49/50), vy := p.vy * (49/50) }

/-- Spec step 6: negate a velocity component when the corresponding
position coordinate lies outside `[0, w]` (resp. `[0, h]`); the position
itself is not clamped. -/
def reflectStep (w h : ℚ) (p : Particle) : Particle :=
  { p with
    vx := if p.x < 0 ∨ p.x > w then -p.vx else p.vx
    vy := if p.y < 0 ∨ p.y > h then -p.vy else p.vy }

/-! ### Hypothesis on the abstract square root

The host `Math.sqrt` satisfies `|a| ≤ sqrt (a² + b²)` (and likewise for
`b`); theorems about the simulator assume only this of `f`. -/

/-- `f` is adequate as the square root used in `dist`: it dominates the
absolute value of each leg of the displacement whose squared norm it is
applied to.  The real square root satisfies this. -/
def SqrtAdequate (f : ℚ → ℚ) : Prop :=
  ∀ a b : ℚ, |a| ≤ f (a * a + b * b) ∧ |b| ≤ f (a * a + b * b)

/-- A concrete adequate square-root over-approximation, used to
instantiate theorems at concrete inputs: `max 1 q` dominates the square
root of any `q` of the form `a² + b²`. -/
def sqrtUB (q : ℚ) : ℚ := max 1 q

/-! ### Particle initialization (`main.jsx` lines 136-145)

`Math.random()` becomes an explicit stream `rand : ℕ → ℚ` of draws in
`[0, 1)`, consumed six at a time in source order (`x, y, vx, vy, r, o`).
The count uses the CSS-pixel dimensions `cw × ch` (`canvas.clientWidth`,
`canvas.clientHeight`, line 137) while positions span the device-pixel
backing store `W × H` (`canvas.width = clientWidth * dpr`, lines 130-131,
139-140). -/

/-- The particle built from draws `rand (6i) .. rand (6i+5)`
(lines 139-144): `x = rand·W`, `y = rand·H`, `vx,vy = (rand−0.5)·0.4`,
`r = rand·2 + 0.5`, `o = rand·0.6 + 0.2`. -/
def mkParticle (rand : ℕ → ℚ) (W H : ℚ) (i : ℕ) : Particle :=
  { x := rand (6*i) * W
    y := rand (6*i+1) * H
    vx := (rand (6*i+2) - 1/2) * (2/5)
    vy := (rand (6*i+3) - 1/2) * (2/5)
    r := rand (6*i+4) * 2 + 1/2
    o := rand (6*i+5) * (3/5) + 1/5 }

/-- Number of particles (lines 137-138):
`Math.max(60, Math.floor(clientWidth * clientHeight / 18000))`. -/
def particleCount (cw ch : ℚ) : ℕ :=
  max 60 (Int.toNat ⌊cw * ch / 18000⌋)

/-- Particle initialization (lines 136-145). -/
def initParticles (rand : ℕ → ℚ) (cw ch W H : ℚ) : List Particle :=
  (List.range (particleCount cw ch)).map (mkParticle rand W H)

/-! ### Lead form (`LeadForm`, `main.jsx` lines 465-524) -/

/-- The five controlled form fields (line 466). -/
structure FormState where
  name : String
  email : String
  phone : String
  company : String
  message : String
deriving DecidableEq

/-- The cleared form written after a completed response (line 485). -/
def emptyForm : FormState :=
  { name := "", email := "", phone := "", company := "", message := "" }

/-- The JSON body POSTed to the webhook (lines 478-482):
`{source: "website", ts, ...state}`. -/
structure Payload where
  source : String
  ts : String
  name : String
  email : String
  phone : String
  company : String
  message : String
deriving DecidableEq

/-- Build the request body from the timestamp and form state. -/
def mkPayload (t : String) (s : FormState) : Payload :=
  { source := "website", ts := t, name := s.name, email := s.email
    phone := s.phone, company := s.company, message := s.message }

/-- Outcome of the single `fetch`: either it resolves with an HTTP status,
or it rejects (network failure). -/
inductive FetchResult where
  | response (status : ℕ)
  | networkError
deriving DecidableEq

/-- `Response.ok` per the fetch standard: status in `[200, 300)`. -/
def respOk (status : ℕ) : Bool :=
  200 ≤ status && status < 300

/-- Observable result of one `onSubmit` run: the requests issued, the
`ok` banner state, the form fields and the loading flag afterwards. -/
structure SubmitOutcome where
  requests : List Payload
  ok : Option Bool
  fields : FormState
  loading : Bool
deriving DecidableEq

/-- `onSubmit` (lines 470-491): one POST of `mkPayload t s`; if the fetch
resolves, `setOk(res.ok)` then `setState({...empty})`; if it throws,
`setOk(false)` and the fields are left untouched; `finally`
`setLoading(false)`. -/
def leadSubmit (t : String) (s : FormState) (r : FetchResult) : SubmitOutcome :=
  match r with
  | .response status =>
      { requests := [mkPayload t s], ok := some (respOk status)
        fields := emptyForm, loading := false }
  | .networkError =>
      { requests := [mkPayload t s], ok := some false
        fields := s, loading := false }

/-- The inline banner rendered from `ok` (lines 515-520). -/
def banner (ok : Option Bool) : Option String :=
  match ok with
  | some true => some "Thanks \x2014 we\x27ll be in touch shortly."
  | some false => some "Something went wrong \x2014 email hello@oceanside.ai"
  | none => none

/-! ### Theme persistence (`useTheme`, `main.jsx` lines 73-85)

`localStorage` is modelled as the `Option String` stored under the
`"theme"` key. -/

/-- Initial theme (lines 74-78): the stored value when truthy
(non-null, non-empty), else `"dark"`. -/
def initTheme (stored : Option String) : String :=
  match stored with
  | some v => if v = "" then "dark" else v
  | none => "dark"

/-- The `useEffect` body (lines 79-83): skip when the theme is falsy,
else write it to storage. -/
def themeEffect (theme : String) (stored : Option String) : Option String :=
  if theme = "" then stored else some theme

/-- The toggle handler (line 90): `theme === "dark" ? "light" : "dark"`. -/
def toggleTheme (t : String) : String :=
  if t = "dark" then "light" else "dark"

/-! ### Effect teardown of the two canvas components -/

/-- Teardown actions a canvas effect can run on unmount. -/
inductive Teardown where
  | cancelFrame
  | removeResizeListener
deriving DecidableEq

/-- `ParticleField` cleanup (lines 177-180):
`cancelAnimationFrame(raf)` then `removeEventListener("resize", resize)`. -/
def particleFieldCleanup : List Teardown :=
  [.cancelFrame, .removeResizeListener]

/-- `SoundWaves` cleanup (line 254): only `cancelAnimationFrame(raf)`;
the resize listener added on line 205 is never removed. -/
def soundWavesCleanup : List Teardown :=
  [.cancelFrame]

/-! ### ParticleField effect re-runs on pointer movement (C10)

The effect's dependency array is `[dpr, mouse.x, mouse.y]` (line 181);
when it changes, React runs the previous cleanup and then the effect body,
which rebuilds `particles.current` from scratch (lines 136-145). -/

/-- The dependency array of the `ParticleField` effect (line 181). -/
def particleEffectDeps (dpr mx my : ℚ) : List ℚ := [dpr, mx, my]

/-- Mounted-effect state: the deps the effect last ran with, the live
particle array, and the teardown actions run so far. -/
structure PFState where
  deps : List ℚ
  particles : List Particle
  teardownsRun : List Teardown

/-- One re-render of `ParticleField`: if the dependency array is
unchanged the effect is skipped; otherwise the previous cleanup runs and
the effect body re-initializes the particle array. -/
def rerenderParticleField (rand : ℕ → ℚ) (cw ch W H : ℚ) (dpr mx my : ℚ)
    (s : PFState) : PFState :=
  if particleEffectDeps dpr mx my = s.deps then s
  else
    { deps := particleEffectDeps dpr mx my
      particles := initParticles rand cw ch W H
      teardownsRun := s.teardownsRun ++ particleFieldCleanup }

/-! ### Concrete inputs used by counterexamples

Each `c*sqrt` is a table returning the exact square root at the squared
norms its run reaches (the theorems state, and `decide` checks, that the
inputs reached are exactly those table entries). -/

/-- Exact square root table for the C2 run (pointer `(0, 50)`, the `y`
displacement stays `0`, so the inputs are the squares of the two `x`
displacements). -/
def c2sqrt (q : ℚ) : ℚ :=
  if q = (999/10) * (999/10) then 999/10
  else if q = (10968849971299/99802098010) * (10968849971299/99802098010) then
    10968849971299/99802098010
  else 0

/-- C2 initial particle: strictly inside a 100×100 canvas, velocity 10
toward the right edge. -/
def c2p0 : Particle :=
  { x := 999/10, y := 50, vx := 10, vy := 0, r := 1, o := 1/2 }

/-- Exact square root table for the C6 run (`dx = -100`, `dy = 0`). -/
def c6sqrt (q : ℚ) : ℚ :=
  if q = 10000 then 100 else 0

/-- C6 particle: exactly at the right boundary `x = 100`, moving outward
with a speed chosen so the pointer's inward kick cancels it exactly. -/
def c6p : Particle :=
  { x := 100, y := 50, vx := 60000000/10000200001, vy := 0, r := 1, o := 1/2 }

/-- Exact square root table for the C7 run (`dx = 1000`, `dy = 0`). -/
def c7sqrt (q : ℚ) : ℚ :=
  if q = 1000000 then 1000 else 0

/-- C7 particle: at rest, 1000 pixels from the pointer. -/
def c7p : Particle :=
  { x := 1000, y := 50, vx := 0, vy := 0, r := 1, o := 1/2 }

/-! ## Theorems -/

/-- C1: one Point Field Simulator update is exactly the spec's pipeline:
repulsion (steps 1-3), then integration, then damping, then boundary
reflection without position clamping, in that order. -/
theorem updatePoint_eq_spec_steps (f : ℚ → ℚ) (w h mx my : ℚ) (p : Particle) :
    updatePoint f w h mx my p =
      reflectStep w h (dampStep (integrateStep (applyForce f mx my p))) := by
  unfold updatePoint reflectStep dampStep integrateStep applyForce
  ext <;> simp

/-! ### Field characterizations of one update and kick bounds -/

theorem updatePoint_x (f : ℚ → ℚ) (w h mx my : ℚ) (p : Particle) :
    (updatePoint f w h mx my p).x = p.x + (p.vx + kickX f mx my p) := rfl

theorem updatePoint_y (f : ℚ → ℚ) (w h mx my : ℚ) (p : Particle) :
    (updatePoint f w h mx my p).y = p.y + (p.vy + kickY f mx my p) := rfl

theorem updatePoint_vx (f : ℚ → ℚ) (w h mx my : ℚ) (p : Particle) :
    (updatePoint f w h mx my p).vx =
      if p.x + (p.vx + kickX f mx my p) < 0 ∨ p.x + (p.vx + kickX f mx my p) > w
      then (p.vx + kickX f mx my p) * (49/50) * (-1)
      else (p.vx + kickX f mx my p) * (49/50) := rfl

theorem updatePoint_vy (f : ℚ → ℚ) (w h mx my : ℚ) (p : Particle) :
    (updatePoint f w h mx my p).vy =
      if p.y + (p.vy + kickY f mx my p) < 0 ∨ p.y + (p.vy + kickY f mx my p) > h
      then (p.vy + kickY f mx my p) * (49/50) * (-1)
      else (p.vy + kickY f mx my p) * (49/50) := rfl

/-- Under an adequate square root the per-frame velocity kick is at most
`0.6 · 0.02 = 0.012 = 3/250` in each component. -/
theorem abs_kick_le (f : ℚ → ℚ) (hf : SqrtAdequate f) (mx my : ℚ) (p : Particle) :
    |kickX f mx my p| ≤ 3/250 ∧ |kickY f mx my p| ≤ 3/250 := by
  obtain ⟨hx, hy⟩ := hf (p.x - mx) (p.y - my)
  have h0 : (0:ℚ) ≤ f ((p.x - mx) * (p.x - mx) + (p.y - my) * (p.y - my)) :=
    le_trans (abs_nonneg _) hx
  have hd : (0:ℚ) < distQ f mx my p := by unfold distQ; linarith
  have hdx : |p.x - mx| ≤ distQ f mx my p := by unfold distQ; linarith
  have hdy : |p.y - my| ≤ distQ f mx my p := by unfold distQ; linarith
  have hf0 : (0:ℚ) ≤ forceQ f mx my p := by
    unfold forceQ
    exact le_min (le_of_lt (by positivity)) (by norm_num)
  have hf1 : forceQ f mx my p ≤ 3/5 := min_le_right _ _
  constructor
  · unfold kickX
    rw [abs_mul, abs_mul, abs_div, abs_of_pos hd, abs_of_nonneg hf0,
      show |(1:ℚ)/50| = 1/50 by norm_num]
    have h1 : |p.x - mx| / distQ f mx my p ≤ 1 := div_le_one_of_le₀ hdx (le_of_lt hd)
    have h3 : (|p.x - mx| / distQ f mx my p) * forceQ f mx my p ≤ 1 * forceQ f mx my p :=
      mul_le_mul_of_nonneg_right h1 hf0
    linarith
  · unfold kickY
    rw [abs_mul, abs_mul, abs_div, abs_of_pos hd, abs_of_nonneg hf0,
      show |(1:ℚ)/50| = 1/50 by norm_num]
    have h1 : |p.y - my| / distQ f mx my p ≤ 1 := div_le_one_of_le₀ hdy (le_of_lt hd)
    have h3 : (|p.y - my| / distQ f mx my p) * forceQ f mx my p ≤ 1 * forceQ f mx my p :=
      mul_le_mul_of_nonneg_right h1 hf0
    linarith

/-- When the pointer distance is at least `D`, the per-frame kick is at
most `(30/D) · 0.02 = 3/(5·D)` in each component. -/
theorem abs_kick_le_far (f : ℚ → ℚ) (hf : SqrtAdequate f) (mx my D : ℚ)
    (p : Particle) (hD : 0 < D) (hfar : D ≤ distQ f mx my p) :
    |kickX f mx my p| ≤ 3/(5*D) ∧ |kickY f mx my p| ≤ 3/(5*D) := by
  obtain ⟨hx, hy⟩ := hf (p.x - mx) (p.y - my)
  have hd : (0:ℚ) < distQ f mx my p := lt_of_lt_of_le hD hfar
  have hdx : |p.x - mx| ≤ distQ f mx my p := by
    unfold distQ at *; linarith
  have hdy : |p.y - my| ≤ distQ f mx my p := by
    unfold distQ at *; linarith
  have hf0 : (0:ℚ) ≤ forceQ f mx my p := by
    unfold forceQ
    exact le_min (le_of_lt (by positivity)) (by norm_num)
  have hfle : forceQ f mx my p ≤ 30 / D :=
    le_trans (min_le_left _ _) (div_le_div_of_nonneg_left (by norm_num) hD hfar)
  have hrw : (3:ℚ)/(5*D) = 1 * (30/D) * (1/50) := by ring
  constructor
  · unfold kickX
    rw [abs_mul, abs_mul, abs_div, abs_of_pos hd, abs_of_nonneg hf0,
      show |(1:ℚ)/50| = 1/50 by norm_num, hrw]
    have h1 : |p.x - mx| / distQ f mx my p ≤ 1 := div_le_one_of_le₀ hdx (le_of_lt hd)
    have h2 : (0:ℚ) ≤ |p.x - mx| / distQ f mx my p :=
      div_nonneg (abs_nonneg _) (le_of_lt hd)
    have h3 : (|p.x - mx| / distQ f mx my p) * forceQ f mx my p ≤ 1 * (30/D) :=
      mul_le_mul h1 hfle hf0 zero_le_one
    have h4 : (0:ℚ) ≤ 1/50 := by norm_num
    exact mul_le_mul_of_nonneg_right h3 h4
  · unfold kickY
    rw [abs_mul, abs_mul, abs_div, abs_of_pos hd, abs_of_nonneg hf0,
      show |(1:ℚ)/50| = 1/50 by norm_num, hrw]
    have h1 : |p.y - my| / distQ f mx my p ≤ 1 := div_le_one_of_le₀ hdy (le_of_lt hd)
    have h3 : (|p.y - my| / distQ f mx my p) * forceQ f mx my p ≤ 1 * (30/D) :=
      mul_le_mul h1 hfle hf0 zero_le_one
    exact mul_le_mul_of_nonneg_right h3 (by norm_num)

/-- One update damps each velocity component to at most `0.98` times its
previous magnitude plus the kick bound `ε`. -/
theorem abs_update_v_le (f : ℚ → ℚ) (w h mx my : ℚ) (p : Particle) (eps : ℚ)
    (hkx : |kickX f mx my p| ≤ eps) (hky : |kickY f mx my p| ≤ eps) :
    |(updatePoint f w h mx my p).vx| ≤ (49/50) * (|p.vx| + eps) ∧
    |(updatePoint f w h mx my p).vy| ≤ (49/50) * (|p.vy| + eps) := by
  have habs : ∀ a : ℚ, |a * (49/50) * (-1)| = |a| * (49/50) := by
    intro a; rw [abs_mul, abs_mul]; norm_num
  have habs2 : ∀ a : ℚ, |a * (49/50)| = |a| * (49/50) := by
    intro a; rw [abs_mul]; norm_num
  constructor
  · rw [updatePoint_vx]
    have htri : |p.vx + kickX f mx my p| ≤ |p.vx| + eps :=
      le_trans (abs_add _ _) (by linarith)
    split_ifs
    · rw [habs]; linarith
    · rw [habs2]; linarith
  · rw [updatePoint_vy]
    have htri : |p.vy + kickY f mx my p| ≤ |p.vy| + eps :=
      le_trans (abs_add _ _) (by linarith)
    split_ifs
    · rw [habs]; linarith
    · rw [habs2]; linarith

/-- `sqrtUB` is an adequate square root stand-in. -/
theorem sqrtAdequate_sqrtUB : SqrtAdequate sqrtUB := by
  have key : ∀ x y : ℚ, |x| ≤ sqrtUB (x * x + y * y) := by
    intro x y
    unfold sqrtUB
    rcases le_or_lt |x| 1 with h | h
    · exact le_max_of_le_left h
    · refine le_max_of_le_right ?_
      have h1 : x * x = |x| * |x| := (abs_mul_abs_self x).symm
      nlinarith [mul_self_nonneg y, mul_pos (lt_trans zero_lt_one h) (sub_pos.mpr h)]
  intro a b
  refine ⟨key a b, ?_⟩
  have hba := key b a
  rwa [add_comm (b * b) (a * a)] at hba

/-- C2 (amended): with any stationary pointer and any adequate square
root, after any number of updates each velocity component's magnitude
stays at most `max` of its initial magnitude and `0.588 = 147/250` (the
fixed point of `v ↦ 0.98·(v + 0.012)`). -/
theorem velocity_bound_invariant (f : ℚ → ℚ) (hf : SqrtAdequate f)
    (w h mx my : ℚ) (p : Particle) (N : ℕ) :
    |(iterUpdate f w h mx my N p).vx| ≤ max |p.vx| (147/250) ∧
    |(iterUpdate f w h mx my N p).vy| ≤ max |p.vy| (147/250) := by
  induction N with
  | zero => exact ⟨le_max_left _ _, le_max_left _ _⟩
  | succ n ih =>
    have hk := abs_kick_le f hf mx my (iterUpdate f w h mx my n p)
    have hstep := abs_update_v_le f w h mx my (iterUpdate f w h mx my n p) (3/250) hk.1 hk.2
    have hMx : (147/250 : ℚ) ≤ max |p.vx| (147/250) := le_max_right _ _
    have hMy : (147/250 : ℚ) ≤ max |p.vy| (147/250) := le_max_right _ _
    constructor
    · show |(updatePoint f w h mx my (iterUpdate f w h mx my n p)).vx| ≤ _
      linarith [ih.1, hstep.1]
    · show |(updatePoint f w h mx my (iterUpdate f w h mx my n p)).vy| ≤ _
      linarith [ih.2, hstep.2]

/-- Witness for `velocity_bound_invariant` at a concrete run. -/
theorem velocity_bound_invariant_witness :
    |(iterUpdate sqrtUB 100 100 0 0 3
        { x := 10, y := 10, vx := 1/10, vy := 0, r := 1, o := 1 }).vx| ≤
      max |(1/10 : ℚ)| (147/250) ∧
    |(iterUpdate sqrtUB 100 100 0 0 3
        { x := 10, y := 10, vx := 1/10, vy := 0, r := 1, o := 1 }).vy| ≤
      max |(0 : ℚ)| (147/250) :=
  velocity_bound_invariant sqrtUB sqrtAdequate_sqrtUB 100 100 0 0
    { x := 10, y := 10, vx := 1/10, vy := 0, r := 1, o := 1 } 3

/-- C2 (counterexample): a particle starting strictly inside the canvas
sits outside the right edge after update 1 and is still outside after
update 2, so out-of-bounds positions are not limited to a single frame's
reflection overshoot.  The first two conjuncts check that the square-root
table is consulted exactly at the two squared displacements of the run
and returns their exact square roots. -/
theorem position_outside_two_frames :
    ((c2p0.x - 0) * (c2p0.x - 0) + (c2p0.y - 50) * (c2p0.y - 50) =
        (999/10) * (999/10) ∧
      c2sqrt ((999/10) * (999/10)) = 999/10) ∧
    (((updatePoint c2sqrt 100 100 0 50 c2p0).x - 0) *
        ((updatePoint c2sqrt 100 100 0 50 c2p0).x - 0) +
        ((updatePoint c2sqrt 100 100 0 50 c2p0).y - 50) *
        ((updatePoint c2sqrt 100 100 0 50 c2p0).y - 50) =
        (10968849971299/99802098010) * (10968849971299/99802098010) ∧
      c2sqrt ((10968849971299/99802098010) * (10968849971299/99802098010)) =
        10968849971299/99802098010) ∧
    (0 ≤ c2p0.x ∧ c2p0.x < 100 ∧ 0 ≤ c2p0.y ∧ c2p0.y ≤ 100) ∧
    (updatePoint c2sqrt 100 100 0 50 c2p0).x > 100 ∧
    (updatePoint c2sqrt 100 100 0 50 (updatePoint c2sqrt 100 100 0 50 c2p0)).x > 100 := by
  norm_num [updatePoint, kickX, kickY, distQ, forceQ, c2sqrt, c2p0, min_def]

/-- C5 (amended): initialization creates exactly
`max(60, ⌊clientWidth·clientHeight/18000⌋)` particles — the count uses the
CSS-pixel dimensions `cw × ch`, not the device-pixel backing store — and,
when every draw lies in `[0,1)`, each particle's position lies inside the
device-pixel surface `[0,W] × [0,H]`, its velocity components in
`[-0.2, 0.2]`, its radius in `[0.5, 2.5]` and its opacity in `[0.2, 0.8]`. -/
theorem init_particles_spec (rand : ℕ → ℚ) (cw ch W H : ℚ)
    (hrand : ∀ n, 0 ≤ rand n ∧ rand n < 1) (hW : 0 < W) (hH : 0 < H) :
    (initParticles rand cw ch W H).length = max 60 (Int.toNat ⌊cw * ch / 18000⌋) ∧
    ∀ p ∈ initParticles rand cw ch W H,
      (0 ≤ p.x ∧ p.x ≤ W) ∧ (0 ≤ p.y ∧ p.y ≤ H) ∧
      (-(1/5) ≤ p.vx ∧ p.vx ≤ 1/5) ∧ (-(1/5) ≤ p.vy ∧ p.vy ≤ 1/5) ∧
      (1/2 ≤ p.r ∧ p.r ≤ 5/2) ∧ (1/5 ≤ p.o ∧ p.o ≤ 4/5) := by
  constructor
  · simp [initParticles, particleCount]
  · intro p hp
    obtain ⟨i, _, rfl⟩ := List.mem_map.mp hp
    have hx := hrand (6*i)
    have hy := hrand (6*i+1)
    have hvx := hrand (6*i+2)
    have hvy := hrand (6*i+3)
    have hr := hrand (6*i+4)
    have ho := hrand (6*i+5)
    refine ⟨⟨?_, ?_⟩, ⟨?_, ?_⟩, ⟨?_, ?_⟩, ⟨?_, ?_⟩, ⟨?_, ?_⟩, ⟨?_, ?_⟩⟩ <;>
      simp only [mkParticle]
    · exact mul_nonneg hx.1 (le_of_lt hW)
    · nlinarith [mul_nonneg (by linarith [hx.2] : (0:ℚ) ≤ 1 - rand (6*i)) (le_of_lt hW)]
    · exact mul_nonneg hy.1 (le_of_lt hH)
    · nlinarith [mul_nonneg (by linarith [hy.2] : (0:ℚ) ≤ 1 - rand (6*i+1)) (le_of_lt hH)]
    · linarith [hvx.1, hvx.2]
    · linarith [hvx.1, hvx.2]
    · linarith [hvy.1, hvy.2]
    · linarith [hvy.1, hvy.2]
    · linarith [hr.1, hr.2]
    · linarith [hr.1, hr.2]
    · linarith [ho.1, ho.2]
    · linarith [ho.1, ho.2]

/-- Witness for `init_particles_spec` at a concrete input. -/
theorem init_particles_spec_witness :
    (initParticles (fun _ => 1/2) 1 1 1 1).length =
      max 60 (Int.toNat ⌊(1:ℚ) * 1 / 18000⌋) :=
  (init_particles_spec (fun _ => 1/2) 1 1 1 1
    (fun _ => by norm_num) (by norm_num) (by norm_num)).1

/-- C5 (counterexample): with device-pixel ratio 2 and a 600×600 CSS-pixel
canvas (1200×1200 device pixels), initialization creates
`max(60, ⌊600·600/18000⌋) = 60` particles, not the
`max(60, ⌊1200·1200/18000⌋) = 80` the claim's device-pixel formula
predicts. -/
theorem particle_count_ignores_dpr :
    (initParticles (fun _ => 0) 600 600 1200 1200).length = 60 ∧
    (600:ℚ) * 2 = 1200 ∧
    max 60 (Int.toNat ⌊(1200:ℚ) * 1200 / 18000⌋) = 80 ∧
    (60 : ℕ) ≠ 80 := by
  refine ⟨?_, by norm_num, ?_, by norm_num⟩
  · have h : ((600:ℚ) * 600 / 18000) = 20 := by norm_num
    simp [initParticles, particleCount, h]
  · have h : ((1200:ℚ) * 1200 / 18000) = 80 := by norm_num
    rw [h]
    simp

/-- C6 (amended): a point exactly at a canvas edge whose outward speed
exceeds `0.03` (comfortably above the maximal per-frame force kick
`0.012`) has that velocity component's sign flipped by the update, and
the next update's integration moves it back toward the canvas. -/
theorem boundary_reflection (f : ℚ → ℚ) (hf : SqrtAdequate f)
    (w h mx my : ℚ) (p : Particle) :
    (p.x = w → 3/100 ≤ p.vx →
      (updatePoint f w h mx my p).vx < 0 ∧
      (updatePoint f w h mx my (updatePoint f w h mx my p)).x <
        (updatePoint f w h mx my p).x) ∧
    (p.x = 0 → p.vx ≤ -(3/100) →
      0 < (updatePoint f w h mx my p).vx ∧
      (updatePoint f w h mx my p).x <
        (updatePoint f w h mx my (updatePoint f w h mx my p)).x) ∧
    (p.y = h → 3/100 ≤ p.vy →
      (updatePoint f w h mx my p).vy < 0 ∧
      (updatePoint f w h mx my (updatePoint f w h mx my p)).y <
        (updatePoint f w h mx my p).y) ∧
    (p.y = 0 → p.vy ≤ -(3/100) →
      0 < (updatePoint f w h mx my p).vy ∧
      (updatePoint f w h mx my p).y <
        (updatePoint f w h mx my (updatePoint f w h mx my p)).y) := by
  have hk1 := abs_le.mp (abs_kick_le f hf mx my p).1
  have hk1y := abs_le.mp (abs_kick_le f hf mx my p).2
  have hk2 := abs_le.mp (abs_kick_le f hf mx my (updatePoint f w h mx my p)).1
  have hk2y := abs_le.mp (abs_kick_le f hf mx my (updatePoint f w h mx my p)).2
  refine ⟨?_, ?_, ?_, ?_⟩
  · intro hx hv
    have hcond : p.x + (p.vx + kickX f mx my p) < 0 ∨
        p.x + (p.vx + kickX f mx my p) > w := by
      right; rw [hx]; linarith [hk1.1]
    have hvx1 : (updatePoint f w h mx my p).vx =
        (p.vx + kickX f mx my p) * (49/50) * (-1) := by
      rw [updatePoint_vx, if_pos hcond]
    have hvx1le : (updatePoint f w h mx my p).vx ≤ -(441/25000) := by
      rw [hvx1]; linarith [hk1.1]
    refine ⟨by linarith, ?_⟩
    rw [updatePoint_x f w h mx my (updatePoint f w h mx my p)]
    linarith [hk2.2]
  · intro hx hv
    have hcond : p.x + (p.vx + kickX f mx my p) < 0 ∨
        p.x + (p.vx + kickX f mx my p) > w := by
      left; rw [hx]; linarith [hk1.2]
    have hvx1 : (updatePoint f w h mx my p).vx =
        (p.vx + kickX f mx my p) * (49/50) * (-1) := by
      rw [updatePoint_vx, if_pos hcond]
    have hvx1ge : (441/25000 : ℚ) ≤ (updatePoint f w h mx my p).vx := by
      rw [hvx1]; linarith [hk1.2]
    refine ⟨by linarith, ?_⟩
    rw [updatePoint_x f w h mx my (updatePoint f w h mx my p)]
    linarith [hk2.1]
  · intro hy hv
    have hcond : p.y + (p.vy + kickY f mx my p) < 0 ∨
        p.y + (p.vy + kickY f mx my p) > h := by
      right; rw [hy]; linarith [hk1y.1]
    have hvy1 : (updatePoint f w h mx my p).vy =
        (p.vy + kickY f mx my p) * (49/50) * (-1) := by
      rw [updatePoint_vy, if_pos hcond]
    have hvy1le : (updatePoint f w h mx my p).vy ≤ -(441/25000) := by
      rw [hvy1]; linarith [hk1y.1]
    refine ⟨by linarith, ?_⟩
    rw [updatePoint_y f w h mx my (updatePoint f w h mx my p)]
    linarith [hk2y.2]
  · intro hy hv
    have hcond : p.y + (p.vy + kickY f mx my p) < 0 ∨
        p.y + (p.vy + kickY f mx my p) > h := by
      left; rw [hy]; linarith [hk1y.2]
    have hvy1 : (updatePoint f w h mx my p).vy =
        (p.vy + kickY f mx my p) * (49/50) * (-1) := by
      rw [updatePoint_vy, if_pos hcond]
    have hvy1ge : (441/25000 : ℚ) ≤ (updatePoint f w h mx my p).vy := by
      rw [hvy1]; linarith [hk1y.2]
    refine ⟨by linarith, ?_⟩
    rw [updatePoint_y f w h mx my (updatePoint f w h mx my p)]
    linarith [hk2y.1]

/-- Witness for `boundary_reflection` at a concrete input. -/
theorem boundary_reflection_witness :
    (updatePoint sqrtUB 100 100 0 0
      { x := 100, y := 50, vx := 1, vy := 0, r := 1, o := 1 }).vx < 0 ∧
    (updatePoint sqrtUB 100 100 0 0 (updatePoint sqrtUB 100 100 0 0
      { x := 100, y := 50, vx := 1, vy := 0, r := 1, o := 1 })).x <
      (updatePoint sqrtUB 100 100 0 0
        { x := 100, y := 50, vx := 1, vy := 0, r := 1, o := 1 }).x :=
  (boundary_reflection sqrtUB sqrtAdequate_sqrtUB 100 100 0 0
    { x := 100, y := 50, vx := 1, vy := 0, r := 1, o := 1 }).1 rfl (by norm_num)

/-- C6 (counterexample): at the right edge with a tiny outward velocity
that the pointer's inward kick cancels exactly, the update leaves the
velocity at `0` — the sign is not flipped.  The middle conjuncts check
the square-root table is exact at the one squared displacement reached. -/
theorem boundary_reflection_cancelled :
    c6p.x = 100 ∧ 0 < c6p.vx ∧
    ((c6p.x - 200) * (c6p.x - 200) + (c6p.y - 50) * (c6p.y - 50) = 10000 ∧
      c6sqrt 10000 = 100 ∧ (100:ℚ) * 100 = 10000) ∧
    (updatePoint c6sqrt 100 100 200 50 c6p).vx = 0 ∧
    ¬ ((updatePoint c6sqrt 100 100 200 50 c6p).vx < 0) := by
  norm_num [updatePoint, kickX, kickY, distQ, forceQ, c6sqrt, c6p, min_def]

/-- C7 (amended): if the pointer stays at distance at least `D` from the
point throughout, each velocity component decays geometrically at ratio
`0.98` per frame down to a residual `29.4/D` that vanishes as the pointer
distance grows; exact decay to zero fails because the repulsion kick is
never zero. -/
theorem damping_decay_bound (f : ℚ → ℚ) (hf : SqrtAdequate f)
    (w h mx my D : ℚ) (hD : 0 < D) (p : Particle) (N : ℕ)
    (hfar : ∀ n, n < N → D ≤ distQ f mx my (iterUpdate f w h mx my n p)) :
    |(iterUpdate f w h mx my N p).vx| ≤ (49/50)^N * |p.vx| + 147/(5*D) ∧
    |(iterUpdate f w h mx my N p).vy| ≤ (49/50)^N * |p.vy| + 147/(5*D) := by
  revert hfar
  induction N with
  | zero =>
    intro _
    have hpos : (0:ℚ) < 147/(5*D) := by positivity
    constructor
    · show |p.vx| ≤ (49/50)^0 * |p.vx| + 147/(5*D)
      rw [pow_zero]; linarith
    · show |p.vy| ≤ (49/50)^0 * |p.vy| + 147/(5*D)
      rw [pow_zero]; linarith
  | succ n ih =>
    intro hfar
    have ih' := ih (fun m hm => hfar m (lt_trans hm (Nat.lt_succ_self n)))
    have hfarn : D ≤ distQ f mx my (iterUpdate f w h mx my n p) :=
      hfar n (Nat.lt_succ_self n)
    have hk := abs_kick_le_far f hf mx my D (iterUpdate f w h mx my n p) hD hfarn
    have hstep := abs_update_v_le f w h mx my (iterUpdate f w h mx my n p)
      (3/(5*D)) hk.1 hk.2
    have e1 : ((49:ℚ)/50)^(n+1) = (49/50) * (49/50)^n := by ring
    have hR : (147:ℚ)/(5*D) = 49 * (3/(5*D)) := by ring
    constructor
    · show |(updatePoint f w h mx my (iterUpdate f w h mx my n p)).vx| ≤ _
      rw [e1]
      linarith [hstep.1, ih'.1, hR]
    · show |(updatePoint f w h mx my (iterUpdate f w h mx my n p)).vy| ≤ _
      rw [e1]
      linarith [hstep.2, ih'.2, hR]

/-- Witness for `damping_decay_bound` at a concrete run. -/
theorem damping_decay_bound_witness :
    |(iterUpdate sqrtUB 100 100 0 0 1
        { x := 10, y := 10, vx := 1/2, vy := 0, r := 1, o := 1 }).vx| ≤
      (49/50)^1 * |(1/2 : ℚ)| + 147/(5*1) ∧
    |(iterUpdate sqrtUB 100 100 0 0 1
        { x := 10, y := 10, vx := 1/2, vy := 0, r := 1, o := 1 }).vy| ≤
      (49/50)^1 * |(0 : ℚ)| + 147/(5*1) :=
  damping_decay_bound sqrtUB sqrtAdequate_sqrtUB 100 100 0 0 1 (by norm_num)
    { x := 10, y := 10, vx := 1/2, vy := 0, r := 1, o := 1 } 1
    (fun n hn => by
      have h0 : n = 0 := by omega
      subst h0
      norm_num [distQ, iterUpdate, sqrtUB])

/-- C7 (counterexample): a point at rest 1000 pixels from the stationary
pointer acquires a nonzero velocity after one update, contradicting pure
geometric decay at ratio `0.98` per frame (which would keep it at rest). -/
theorem rest_point_gains_velocity :
    c7p.vx = 0 ∧ c7p.vy = 0 ∧
    ((c7p.x - 0) * (c7p.x - 0) + (c7p.y - 50) * (c7p.y - 50) = 1000000 ∧
      c7sqrt 1000000 = 1000 ∧ (1000:ℚ) * 1000 = 1000000 ∧
      1000 ≤ distQ c7sqrt 0 50 c7p) ∧
    0 < (updatePoint c7sqrt 2000 100 0 50 c7p).vx ∧
    ¬ (|(updatePoint c7sqrt 2000 100 0 50 c7p).vx| ≤ (49/50) * |c7p.vx|) := by
  norm_num [updatePoint, kickX, kickY, distQ, forceQ, c7sqrt, c7p, min_def]

/-- C3 (amended): the form fields are cleared after any completed HTTP
response, whatever its status, but a thrown network error leaves them
untouched. -/
theorem fields_cleared_on_response_only (t : String) (s : FormState) :
    (∀ status : ℕ, (leadSubmit t s (.response status)).fields = emptyForm) ∧
    (leadSubmit t s .networkError).fields = s :=
  ⟨fun _ => rfl, rfl⟩

/-- C3 (counterexample): a thrown network error leaves a nonempty form
unchanged, so the fields are not cleared unconditionally after every
attempt. -/
theorem network_error_keeps_fields :
    (leadSubmit "2026-01-01T00:00:00Z"
        { name := "Ada", email := "ada@ex.com", phone := "555", company := "Ex",
          message := "hi" } .networkError).fields =
      { name := "Ada", email := "ada@ex.com", phone := "555", company := "Ex",
        message := "hi" } ∧
    ({ name := "Ada", email := "ada@ex.com", phone := "555", company := "Ex",
        message := "hi" } : FormState) ≠ emptyForm := by
  refine ⟨rfl, ?_⟩
  simp [emptyForm]

/-- C4: the submission issues exactly one request (never retried), the
outcome is judged solely by the HTTP status — `some true` exactly for a
2xx response, `some false` for any non-2xx response or a thrown network
error — the failure banner carries the fallback contact email, and the
handler always terminates with `loading` reset (no crash). -/
theorem submit_outcome_mapping (t : String) (s : FormState) (r : FetchResult) :
    (leadSubmit t s r).requests = [mkPayload t s] ∧
    (leadSubmit t s r).requests.length = 1 ∧
    ((leadSubmit t s r).ok = some true ↔
      ∃ status, r = .response status ∧ 200 ≤ status ∧ status < 300) ∧
    ((leadSubmit t s r).ok = some false ↔
      r = .networkError ∨
        ∃ status, r = .response status ∧ ¬(200 ≤ status ∧ status < 300)) ∧
    banner (some false) = some "Something went wrong \x2014 email hello@oceanside.ai" ∧
    banner (some true) = some "Thanks \x2014 we\x27ll be in touch shortly." ∧
    (leadSubmit t s r).loading = false := by
  cases r with
  | response status =>
    refine ⟨rfl, rfl, ?_, ?_, rfl, rfl, rfl⟩
    · constructor
      · intro hok
        have h : respOk status = true := by
          simpa [leadSubmit] using hok
        simp [respOk] at h
        exact ⟨status, rfl, h.1, h.2⟩
      · rintro ⟨st, hst, h1, h2⟩
        injection hst with h3
        subst h3
        simp [leadSubmit, respOk, h1, h2]
    · constructor
      · intro hok
        have h : respOk status = false := by
          simpa [leadSubmit] using hok
        refine Or.inr ⟨status, rfl, ?_⟩
        intro hc
        rw [show respOk status = true by simp [respOk, hc.1, hc.2]] at h
        simp at h
      · rintro (hne | ⟨st, hst, hbad⟩)
        · exact absurd hne (by simp)
        · injection hst with h3
          subst h3
          have h : respOk status = false := by
            simp [respOk]
            omega
          simp [leadSubmit, h]
  | networkError =>
    refine ⟨rfl, rfl, ?_, ?_, rfl, rfl, rfl⟩
    · simp [leadSubmit]
    · simp [leadSubmit]

/-- C8: the persisted theme round-trips — writing `"light"` through the
effect and re-reading at startup yields `"light"`; with nothing stored the
startup default is `"dark"`; and every toggle rewrites the stored value to
the new theme. -/
theorem theme_round_trip (stored : Option String) :
    initTheme (themeEffect "light" stored) = "light" ∧
    initTheme none = "dark" ∧
    ∀ t : String, themeEffect (toggleTheme t) stored = some (toggleTheme t) := by
  refine ⟨by simp [themeEffect, initTheme], rfl, ?_⟩
  intro t
  rcases eq_or_ne t "dark" with h | h <;> simp [toggleTheme, themeEffect, h]

/-- C9: `ParticleField`'s unmount cleanup removes its resize listener, but
`SoundWaves`'s unmount cleanup only cancels the pending animation frame —
its resize listener (registered on mount) is never deregistered, so the
claimed teardown is violated by `SoundWaves`. -/
theorem soundwaves_cleanup_lacks_resize :
    Teardown.cancelFrame ∈ particleFieldCleanup ∧
    Teardown.removeResizeListener ∈ particleFieldCleanup ∧
    Teardown.cancelFrame ∈ soundWavesCleanup ∧
    Teardown.removeResizeListener ∉ soundWavesCleanup := by
  refine ⟨?_, ?_, ?_, ?_⟩ <;> simp [particleFieldCleanup, soundWavesCleanup]

/-- C10: the `ParticleField` effect lists the pointer coordinates in its
dependency array, so a pointer move re-runs it: the previous cleanup
(cancelling the pending frame and removing the resize listener) executes
and the particle array is rebuilt from fresh draws, independently of the
particles evolved so far. -/
theorem pointer_move_reinitializes (rand : ℕ → ℚ) (cw ch W H dpr mx my mx' my' : ℚ)
    (s : PFState) (hdeps : s.deps = particleEffectDeps dpr mx my)
    (hne : mx' ≠ mx ∨ my' ≠ my) :
    (rerenderParticleField rand cw ch W H dpr mx' my' s).particles =
      initParticles rand cw ch W H ∧
    (rerenderParticleField rand cw ch W H dpr mx' my' s).teardownsRun =
      s.teardownsRun ++ particleFieldCleanup ∧
    (rerenderParticleField rand cw ch W H dpr mx' my' s).deps =
      particleEffectDeps dpr mx' my' := by
  have hcond : particleEffectDeps dpr mx' my' ≠ s.deps := by
    intro hEq
    rw [hdeps] at hEq
    simp only [particleEffectDeps, List.cons.injEq, and_true] at hEq
    rcases hne with h1 | h1
    · exact h1 hEq.2.1
    · exact h1 hEq.2.2
  unfold rerenderParticleField
  rw [if_neg hcond]
  exact ⟨rfl, rfl, rfl⟩

/-- Witness for `pointer_move_reinitializes` at a concrete input: a
diagonal pointer move from `(0, 0)` to `(1, 2)`. -/
theorem pointer_move_reinitializes_witness :
    (rerenderParticleField (fun _ => 0) 1 1 1 1 1 1 2
        { deps := particleEffectDeps 1 0 0, particles := [], teardownsRun := [] }).particles =
      initParticles (fun _ => 0) 1 1 1 1 ∧
    (rerenderParticleField (fun _ => 0) 1 1 1 1 1 1 2
        { deps := particleEffectDeps 1 0 0, particles := [], teardownsRun := [] }).teardownsRun =
      ([] : List Teardown) ++ particleFieldCleanup ∧
    (rerenderParticleField (fun _ => 0) 1 1 1 1 1 1 2
        { deps := particleEffectDeps 1 0 0, particles := [], teardownsRun := [] }).deps =
      particleEffectDeps 1 1 2 :=
  pointer_move_reinitializes (fun _ => 0) 1 1 1 1 1 0 0 1 2
    { deps := particleEffectDeps 1 0 0, particles := [], teardownsRun := [] }
    rfl (Or.inl (by norm_num))

end Oceanside
